import Mathlib

/-! Shallow embedding of the `rmr` motion-detection pipeline (src/modect.rs,
src/pushover.rs, src/observable_buf.rs) and proofs about it.

Modelling conventions:
- `f64` score arithmetic is modelled exactly over `ℚ`; the single `NaN`
  that the source can produce (the `0/0` of `frame_diff` when every pixel
  is masked away) is modelled by `Option`, `none` standing for the
  `{NaN, NaN}` sentinel.  `NaN` fails every `<`/`>` comparison in the
  source, and `none` is classified as motion-negative here.
- `sqrt` never needs to be computed: the source only ever compares
  `std_dev_estimate = sqrt(v)` against a threshold, so the embedding
  carries the radicand `v` and compares with `sqrt_gt` (justified against
  `Real.sqrt` by `sqrt_gt_iff_real_sqrt`).
- machine integers (`u64` frame counters, `usize` lengths) are `ℕ`;
  subtraction sites are all guarded by the source's own invariants, and
  the one `usize` wrap-around the source relies on (in `attach_webp`'s
  first loop iteration, `-1isize as usize + 1`) is modelled explicitly
  with `% 2 ^ 64`.
-/

namespace Rmr

/-- An RGB pixel: the three `u8` channel values, carried as integers (the
source casts each channel to `i32` before subtracting; `i32` cannot
overflow since `3 * 255^2 < 2^31`). -/
abbrev Pixel := ℤ × ℤ × ℤ

/-- An RGB image, as its row-major pixel sequence (`image::RgbImage`). -/
abbrev RFrame := List Pixel

/-- A grayscale mask image, as its row-major luma values (`image::GrayImage`). -/
abbrev Mask := List ℕ

/-- Per-pixel difference: `((c1 as i32) - (c2 as i32)).pow(2)` summed over
the three channels (src/modect.rs lines 296-301). -/
def pixelDiff (p1 p2 : Pixel) : ℤ :=
  (p1.1 - p2.1) ^ 2 + (p1.2.1 - p2.2.1) ^ 2 + (p1.2.2 - p2.2.2) ^ 2

/-- The mask test for the `i`-th pixel: the source advances a parallel mask
iterator and keeps the pixel when the mask pixel is `0`, or when the mask is
absent or exhausted (`.unwrap_or(true)`, src/modect.rs lines 288-295). -/
def maskAllows (mask : Option Mask) (i : ℕ) : Bool :=
  match mask with
  | none => true
  | some m =>
    match m.get? i with
    | none => true
    | some v => v == 0

/-- The sequence of per-pixel differences `d_i` that survive the mask, in
row-major order (the source's `frame1.pixels().zip(frame2.pixels())` loop
with the `continue` on masked pixels). -/
def diffList (frame1 frame2 : RFrame) (mask : Option Mask) : List ℤ :=
  ((frame1.zip frame2).enum.filter fun p => maskAllows mask p.1).map
    fun p => pixelDiff p.2.1 p.2.2

/-- The running accumulator of `MotionDetector::frame_diff`: `sum` is the
source's `sum: u64` (`u64` overflow would need ~10^14 pixels and is not
modelled), `running_stddev` its `running_stddev: f64`, `pixel_ct` its
`pixel_ct: u64`. -/
structure DiffAcc where
  sum : ℤ
  running_stddev : ℚ
  pixel_ct : ℕ
deriving DecidableEq

/-- One iteration of the `frame_diff` loop body on a surviving pixel
difference `d`: the variance term is accumulated from the *old* `sum` and
`pixel_ct` (and only when `pixel_ct > 0`), after which `sum` and `pixel_ct`
are updated (src/modect.rs lines 302-306). -/
def diffStep (acc : DiffAcc) (d : ℤ) : DiffAcc :=
  { sum := acc.sum + d
    running_stddev :=
      if 0 < acc.pixel_ct then
        acc.running_stddev + ((d : ℚ) - (acc.sum : ℚ) / (acc.pixel_ct : ℚ)) ^ 2
      else acc.running_stddev
    pixel_ct := acc.pixel_ct + 1 }

/-- `MotionDetector::frame_diff` (src/modect.rs lines 276-312).  `none`
models the `{NaN, NaN}` sentinel produced by `0/0` when every pixel is
masked away; otherwise `some (average, varianceEstimate)`, the source's
`std_dev_estimate` being `sqrt varianceEstimate`. -/
def frame_diff (frame1 frame2 : RFrame) (mask : Option Mask) : Option (ℚ × ℚ) :=
  let acc := (diffList frame1 frame2 mask).foldl diffStep ⟨0, 0, 0⟩
  if acc.pixel_ct = 0 then none
  else some ((acc.sum : ℚ) / (acc.pixel_ct : ℚ), acc.running_stddev / (acc.pixel_ct : ℚ))

/-- The comparison `sqrt v > t` of the source, expressed on the radicand
`v`: for `0 ≤ v` it is equivalent to `t < 0 ∨ t ^ 2 < v`
(see `sqrt_gt_iff_real_sqrt`). -/
def sqrt_gt (v t : ℚ) : Bool :=
  if t < 0 then true else decide (t ^ 2 < v)

/-- `RunningMotionDetectorConfig` (src/modect.rs lines 5-15); `mask_file`
is replaced by the decoded mask carried directly in the detector. -/
structure RunningMotionDetectorConfig where
  change_minimum : ℚ
  change_maximum : ℚ
  stddev_minimum : ℚ
  minimum_frame_count : ℕ
  minimum_total_change : ℚ
  followup_frame_count : ℕ
  maximum_frame_wait : ℕ
deriving DecidableEq

/-- The classification of src/modect.rs lines 129-132:
`diff.average > change_minimum && diff.average < change_maximum &&
diff.std_dev_estimate > stddev_minimum`, on the radicand of the stddev. -/
def motionPositive (config : RunningMotionDetectorConfig)
    (average varianceEstimate : ℚ) : Bool :=
  decide (config.change_minimum < average) && decide (average < config.change_maximum)
    && sqrt_gt varianceEstimate config.stddev_minimum

/-- The classification applied to a `frame_diff` result; the `NaN` sentinel
(`none`) fails all three comparisons, hence is motion-negative. -/
def isMotion (config : RunningMotionDetectorConfig) (d : Option (ℚ × ℚ)) : Bool :=
  match d with
  | none => false
  | some (average, varianceEstimate) => motionPositive config average varianceEstimate

/-- `MotionDetectionFrame` (src/modect.rs lines 31-36).  `stddev_sq` is the
square of the source's stored `stddev` field (the source stores the square
root; the field is only ever stored, never branched on). -/
structure MotionDetectionFrame where
  image : RFrame
  change : ℚ
  stddev_sq : ℚ
deriving DecidableEq

/-- `MotionDetectionEvent` (src/modect.rs lines 38-43). -/
structure MotionDetectionEvent where
  start_stream_frame_number : ℕ
  end_stream_frame_number : ℕ
  frames : List MotionDetectionFrame
  total_score : ℚ
deriving DecidableEq

/-- `MotionDetectionState` (src/modect.rs lines 45-75). -/
inductive MotionDetectionState where
  | Idle (frame_number : ℕ)
  | WaitAndSee (start_frame_number current_frame_number : ℕ) (current_score : ℚ)
  | Active (start_frame_number current_frame_number : ℕ) (current_score : ℚ)
  | Followup (start_frame_number current_frame_number : ℕ) (current_score : ℚ)
  | Rejected (event : MotionDetectionEvent)
  | Completed (event : MotionDetectionEvent) (was_confirmed_already : Bool)
  | ConfirmedInProgress (event : MotionDetectionEvent)
deriving DecidableEq

/-- `MotionDetectionStats` (src/modect.rs lines 83-87); `none` again models
`NaN` (`change`/`stddev` of a fully masked diff). -/
structure MotionDetectionStats where
  change : Option ℚ
  stddev_sq : Option ℚ
  frame_number : ℕ
deriving DecidableEq

/-- The mutable state of `RunningMotionDetector` (src/modect.rs lines
17-29); the `Utc::now()` tags on pending states are dropped. -/
structure RunningMotionDetector where
  config : RunningMotionDetectorConfig
  mask_image : Option Mask
  last_frame : Option RFrame
  frame_number : ℕ
  current_detection : List MotionDetectionFrame
  followup_frames : List MotionDetectionFrame
  detection_start_frame : Option ℕ
  detection_confirmed : Bool
  current_detection_score : ℚ
  pending_states : List MotionDetectionState
deriving DecidableEq

/-- `RunningMotionDetector::new` (src/modect.rs lines 90-107), with the
mask image already decoded. -/
def RunningMotionDetector.new (config : RunningMotionDetectorConfig)
    (mask_image : Option Mask) : RunningMotionDetector :=
  { config := config
    mask_image := mask_image
    last_frame := none
    frame_number := 0
    current_detection := []
    followup_frames := []
    detection_start_frame := none
    detection_confirmed := false
    current_detection_score := 0
    pending_states := [] }

/-- Step one of the motion-positive arm (src/modect.rs lines 133-142):
splice the buffered post-roll onto the run, or — when the run is empty —
seed it with a pre-roll copy of `last_frame` scored `0, 0`. -/
def splicedDetection (d : RunningMotionDetector) (last_frame : RFrame) :
    List MotionDetectionFrame :=
  if !d.followup_frames.isEmpty then d.current_detection ++ d.followup_frames
  else if d.current_detection.isEmpty then
    [{ image := last_frame, change := 0, stddev_sq := 0 }]
  else d.current_detection

/-- The run's start frame as the positive arm reads it after line 143-145
of src/modect.rs: the recorded `detection_start_frame`, or `frame_number - 1`
when none was recorded yet (it is set to exactly that just before use). -/
def startFrameOf (d : RunningMotionDetector) : ℕ :=
  d.detection_start_frame.getD (d.frame_number - 1)

/-- The `ConfirmedInProgress` guard (src/modect.rs lines 146-151):
`score ≥ minimum_total_change`, `frame_number - start` strictly above
`maximum_frame_wait + followup_frame_count + minimum_frame_count`, and not
already confirmed. -/
def confirmCond (d : RunningMotionDetector) : Bool :=
  decide (d.config.minimum_total_change ≤ d.current_detection_score) &&
  decide ((d.config.maximum_frame_wait + d.config.followup_frame_count
      + d.config.minimum_frame_count) < d.frame_number - startFrameOf d) &&
  !d.detection_confirmed

/-- The motion-positive arm of `frame_recv` (src/modect.rs lines 132-193),
before the trailing `frame_number += 1` / `last_frame` update.  The
`detection_start_frame.unwrap()` sites read the value set just above, so
`getD` never falls back where the source would not have panicked. -/
def motionPositiveStep (d : RunningMotionDetector) (last_frame new_frame : RFrame)
    (average varianceEstimate : ℚ) : RunningMotionDetector :=
  let cd0 := splicedDetection d last_frame
  let fu0 : List MotionDetectionFrame :=
    if !d.followup_frames.isEmpty then [] else d.followup_frames
  let start := startFrameOf d
  let confirmStates : List MotionDetectionState :=
    if confirmCond d then
      [.ConfirmedInProgress
        { start_stream_frame_number := start
          end_stream_frame_number := d.frame_number
          frames := cd0
          total_score := d.current_detection_score }]
    else []
  let cd1 := cd0 ++ [{ image := new_frame, change := average, stddev_sq := varianceEstimate }]
  let score1 := d.current_detection_score + average
  let tailState : MotionDetectionState :=
    if cd1.length ≤ d.config.minimum_frame_count ∨ score1 < d.config.minimum_total_change then
      .WaitAndSee start d.frame_number score1
    else
      .Active start d.frame_number score1
  { d with
    current_detection := cd1
    followup_frames := fu0
    detection_start_frame := some start
    detection_confirmed := d.detection_confirmed || confirmCond d
    current_detection_score := score1
    pending_states := d.pending_states ++ confirmStates ++ [tailState] }

/-- The motion-negative arm of `frame_recv` (src/modect.rs lines 194-257).
The reject/complete condition reads `current_detection.len()` *before* the
post-roll splice, exactly as the source's `else if` does.  The
`detection_start_frame.unwrap()` sites can only be reached with a non-empty
run, which always has a recorded start; `getD 0` stands in for the panic. -/
def motionNegativeStep (d : RunningMotionDetector) (new_frame : RFrame) :
    RunningMotionDetector :=
  if d.current_detection.isEmpty then d
  else if d.followup_frames.length < d.config.followup_frame_count then
    { d with
      pending_states := d.pending_states ++
        [.Followup (d.detection_start_frame.getD 0) d.frame_number d.current_detection_score]
      followup_frames := d.followup_frames ++
        [{ image := new_frame, change := 0, stddev_sq := 0 }] }
  else
    let event : MotionDetectionEvent :=
      { start_stream_frame_number := d.detection_start_frame.getD 0
        end_stream_frame_number := d.frame_number - 1
        frames := d.current_detection ++ d.followup_frames
        total_score := d.current_detection_score }
    let decided : MotionDetectionState :=
      if d.current_detection.length ≤ d.config.minimum_frame_count
          ∨ d.current_detection_score < d.config.minimum_total_change then
        .Rejected event
      else
        .Completed event d.detection_confirmed
    { d with
      current_detection := []
      followup_frames := []
      detection_start_frame := none
      detection_confirmed := false
      current_detection_score := 0
      pending_states := d.pending_states ++ [decided, .Idle d.frame_number] }

/-- The classification dispatch of `frame_recv` (src/modect.rs lines
129-132 and 194): the `NaN` sentinel fails every comparison, so it takes
the motion-negative arm. -/
def dispatchDiff (d : RunningMotionDetector) (last_frame new_frame : RFrame) :
    Option (ℚ × ℚ) → RunningMotionDetector
  | none => motionNegativeStep d new_frame
  | some (average, varianceEstimate) =>
    if motionPositive d.config average varianceEstimate then
      motionPositiveStep d last_frame new_frame average varianceEstimate
    else
      motionNegativeStep d new_frame

/-- `RunningMotionDetector::frame_recv` (src/modect.rs lines 115-265):
the bootstrap arm, then scoring, classification, branch dispatch, and the
trailing counter/`last_frame` update, returning the stats. -/
def frame_recv (d : RunningMotionDetector) (new_frame : RFrame) :
    RunningMotionDetector × MotionDetectionStats :=
  match d.last_frame with
  | none =>
    ({ d with
        pending_states := d.pending_states ++ [.Idle d.frame_number]
        last_frame := some new_frame
        frame_number := d.frame_number + 1 },
     { change := some 0, stddev_sq := some 0, frame_number := d.frame_number })
  | some last_frame =>
    let diff := frame_diff last_frame new_frame d.mask_image
    let d1 := dispatchDiff d last_frame new_frame diff
    ({ d1 with frame_number := d1.frame_number + 1, last_frame := some new_frame },
     { change := diff.map Prod.fst
       stddev_sq := diff.map Prod.snd
       frame_number := d1.frame_number })

/-- Feeding a sequence of frames to the detector, in order. -/
def runDetector (d : RunningMotionDetector) (frames : List RFrame) :
    RunningMotionDetector :=
  frames.foldl (fun d f => (frame_recv d f).1) d

/-- `MAX_ALERT_ATTACHMENT_SIZE = (1024 * 1024 * 5) / 2` (src/pushover.rs line 46). -/
def MAX_ALERT_ATTACHMENT_SIZE : ℕ := 1024 * 1024 * 5 / 2

/-- `MAX_WEBP_BYTES_PER_FRAME` (src/pushover.rs line 48). -/
def MAX_WEBP_BYTES_PER_FRAME : ℕ := 8192

/-- `MAX_WEBP_FRAMES` (src/pushover.rs line 50). -/
def MAX_WEBP_FRAMES : ℕ := MAX_ALERT_ATTACHMENT_SIZE / MAX_WEBP_BYTES_PER_FRAME

/-- The frame-selection of `attach_jpeg` (src/pushover.rs lines 125-129):
Rust's `Iterator::max_by` reduces with `core::cmp::max_by`, which keeps the
*second* argument on `Less | Equal`; the comparator
`x.change.partial_cmp(&y.change).unwrap_or(Less)` is `Greater` exactly when
`y.change < x.change` (event scores are never NaN). -/
def max_by_change (frames : List MotionDetectionFrame) :
    Option MotionDetectionFrame :=
  match frames with
  | [] => none
  | f :: rest => some (rest.foldl (fun x y => if y.change < x.change then x else y) f)

/-- The frame loop of `attach_gif` (src/pushover.rs lines 144-160), with
the gif encoder abstracted: `chunks` holds the bytes `encode_frame` appends
to the buffer for each event frame (arbitrary, per frame).  `ObservableBuf`
(src/observable_buf.rs) makes `len` the buffer length after those writes.
Returns the buffer and the final `acceptable_ending`. -/
def gifLoop (buf : List ℕ) (acceptable_ending : ℕ) :
    List (List ℕ) → List ℕ × ℕ
  | [] => (buf, acceptable_ending)
  | c :: rest =>
    if MAX_ALERT_ATTACHMENT_SIZE < (buf ++ c).length then (buf ++ c, acceptable_ending)
    else gifLoop (buf ++ c) (buf ++ c).length rest

/-- `attach_gif`'s resulting attachment (src/pushover.rs lines 140-166):
run the loop from `acceptable_ending = 0`, let `drop(encoder)` flush
`trailer`, then `truncate(acceptable_ending)`. -/
def attach_gif (buf0 : List ℕ) (chunks : List (List ℕ)) (trailer : List ℕ) :
    List ℕ :=
  let r := gifLoop buf0 0 chunks
  (r.1 ++ trailer).take r.2

/-- Rust's `as usize` reinterpretation of an `isize` (two's complement,
64-bit). -/
def usizeOf (z : ℤ) : ℕ := (z % 2 ^ 64).toNat

/-- The per-iteration `target_index` computation of `attach_webp`
(src/pushover.rs lines 197-200): `frame_index.round() as usize`, bumped to
`last_frame_index as usize + 1` whenever it does not exceed
`last_frame_index as usize`.  `f64::round` is round-half-away-from-zero,
which on the loop's non-negative `frame_index` is `round` on `ℚ`; the
`-1isize as usize` reinterpretation and the wrapping `+ 1` of the first
iteration (release-mode `usize` overflow) are `usizeOf` / `% 2 ^ 64`. -/
def webpTarget (last_frame_index : ℤ) (frame_index : ℚ) : ℕ :=
  if (round frame_index).toNat ≤ usizeOf last_frame_index then
    (usizeOf last_frame_index + 1) % 2 ^ 64
  else (round frame_index).toNat

/-- The sampling loop of `attach_webp` (src/pushover.rs lines 192-214),
with the pixel encoding abstracted away: the returned list records, in
order, the `(target_index, timestamp ms)` of every `add_frame` call. -/
def webpLoop (frames : List MotionDetectionFrame) (ms_per_frame : ℕ) :
    ℕ → ℚ → ℤ → ℕ → List (ℕ × ℕ)
  | 0, _, _, _ => []
  | fuel + 1, frame_index, last_frame_index, encoded_frame_index =>
    match frames.get? (webpTarget last_frame_index frame_index) with
    | none => []
    | some _ =>
      (webpTarget last_frame_index frame_index, ms_per_frame * encoded_frame_index) ::
        webpLoop frames ms_per_frame fuel
          (frame_index + (frames.length : ℚ) / (MAX_WEBP_FRAMES : ℚ))
          (webpTarget last_frame_index frame_index : ℤ) (encoded_frame_index + 1)

/-- `attach_webp`'s emitted samples (src/pushover.rs lines 168-219).
`ms_per_frame = 1000 / frame_rate as i32`: the `as i32` cast truncates
toward zero (`⌊·⌋` on the non-negative rates modelled; saturation above
`2^31` is outside the model), and `/` is truncating `i32` division, which
on non-negative operands is `ℕ` division.  A frame rate below 1 makes the
source divide by zero and panic; here it yields `ms_per_frame = 0`. -/
def attach_webp_samples (frames : List MotionDetectionFrame) (frame_rate : ℚ) :
    List (ℕ × ℕ) :=
  let ms_per_frame := 1000 / (Int.toNat ⌊frame_rate⌋)
  webpLoop frames ms_per_frame MAX_WEBP_FRAMES 0 (-1) 0

/-- `PushoverPriority` (src/config.rs lines 55-62). -/
inductive PushoverPriority where
  | Ignore
  | Lowest
  | Low
  | Normal
  | High
  | Emergency
deriving DecidableEq

/-- The `#[repr(i32)]` discriminants of `PushoverPriority`. -/
def PushoverPriority.toI32 : PushoverPriority → ℤ
  | .Ignore => -3
  | .Lowest => -2
  | .Low => -1
  | .Normal => 0
  | .High => 1
  | .Emergency => 2

/-- `AlertState` (src/pushover.rs lines 118-122). -/
inductive AlertState where
  | Confirmed
  | Completed
  | CompletedAfterConfirm
deriving DecidableEq

/-- The priority / suppression logic of `alert_event` (src/pushover.rs
lines 244-260): `PushoverAlert::new` seeds the priority from the global
pushover config (absent config ⇒ `None`); a configured camera priority
overrides it; an effective priority equal to `Ignore` returns before any
alert is built; the `CompletedAfterConfirm` title arm then overwrites the
priority with `Lowest`.  Result `none` = alert suppressed, `some p` =
alert dispatched carrying the `priority: Option<i32>` field `p`. -/
def alert_event_priority (global_priority : Option PushoverPriority)
    (camera_alert_priority : Option PushoverPriority) (state : AlertState) :
    Option (Option ℤ) :=
  let p0 : Option ℤ := global_priority.map PushoverPriority.toI32
  let p1 : Option ℤ :=
    match camera_alert_priority with
    | some priority => some priority.toI32
    | none => p0
  if p1 = some PushoverPriority.Ignore.toI32 then none
  else
    some (match state with
      | .CompletedAfterConfirm => some PushoverPriority.Lowest.toI32
      | .Confirmed => p1
      | .Completed => p1)

/-- The scenario S1 configuration of spec §8 (no mask). -/
def s1Config : RunningMotionDetectorConfig :=
  { change_minimum := 1
    change_maximum := 10000
    stddev_minimum := 0
    minimum_frame_count := 3
    minimum_total_change := 10
    followup_frame_count := 2
    maximum_frame_wait := 1 }

/-- The uniformly black 4×4 RGB frame `A = (0,0,0)` of spec §8. -/
def frameA : RFrame := List.replicate 16 ((0 : ℤ), (0 : ℤ), (0 : ℤ))

/-- The transitions a fresh S1 detector produces on input `A,A,A,A,A`. -/
def s1Trace : List MotionDetectionState :=
  (runDetector (RunningMotionDetector.new s1Config none)
    [frameA, frameA, frameA, frameA, frameA]).pending_states

/-- A two-pixel all-black frame used in spot checks. -/
def witnessP : RFrame := [((0 : ℤ), (0 : ℤ), (0 : ℤ)), ((0 : ℤ), (0 : ℤ), (0 : ℤ))]

/-- A two-pixel frame whose first pixel has red channel 50, so that the
two surviving per-pixel diffs (2500 and 0) differ. -/
def witnessQ : RFrame := [((50 : ℤ), (0 : ℤ), (0 : ℤ)), ((0 : ℤ), (0 : ℤ), (0 : ℤ))]

/-- A permissive configuration used in spot checks. -/
def witnessConfig : RunningMotionDetectorConfig :=
  { change_minimum := 1
    change_maximum := 1000000
    stddev_minimum := 0
    minimum_frame_count := 1
    minimum_total_change := 1
    followup_frame_count := 1
    maximum_frame_wait := 0 }

/-- A detector mid-run: three frames seen, a two-frame run, full one-slot
post-roll buffer. -/
def witnessDetector1 : RunningMotionDetector :=
  { config := witnessConfig
    mask_image := none
    last_frame := some witnessP
    frame_number := 3
    current_detection := [⟨witnessP, 0, 0⟩, ⟨witnessQ, 1250, 3125000⟩]
    followup_frames := [⟨witnessP, 0, 0⟩]
    detection_start_frame := some 0
    detection_confirmed := false
    current_detection_score := 1250
    pending_states := [] }

/-- A fresh detector that has seen exactly one frame (`witnessP`). -/
def witnessDetector2 : RunningMotionDetector :=
  { config := witnessConfig
    mask_image := none
    last_frame := some witnessP
    frame_number := 1
    current_detection := []
    followup_frames := []
    detection_start_frame := none
    detection_confirmed := false
    current_detection_score := 0
    pending_states := [] }

/-- Spec-side: the running sum `S` after the first `i` surviving per-pixel
differences. -/
def sumFirst (ds : List ℤ) (i : ℕ) : ℤ := (ds.take i).sum

/-- Spec-side closed form of the variance accumulator: each pixel `i > 0`
contributes `(d_i − S_i/i)²`, where `S_i` and the count `i` are the running
sum and count from *before* pixel `i`. -/
def specVariance (ds : List ℤ) : ℚ :=
  ∑ i ∈ Finset.range ds.length,
    if 0 < i then ((ds.getD i 0 : ℚ) - (sumFirst ds i : ℚ) / (i : ℚ)) ^ 2 else 0

/-- Spec-side "latest maximum": scanning from the right, the earlier frame
wins only with a strictly larger `change`. -/
def lastMaxByChange : List MotionDetectionFrame → Option MotionDetectionFrame
  | [] => none
  | f :: rest =>
    match lastMaxByChange rest with
    | none => some f
    | some m => if m.change < f.change then some f else some m

/-- Frames used in the jpeg tie-break counterexample: equal `change`,
distinct images. -/
def jpegFrameA : MotionDetectionFrame := ⟨witnessP, 5, 0⟩

/-- The later of the two tied frames. -/
def jpegFrameB : MotionDetectionFrame := ⟨witnessQ, 5, 0⟩

/-- The claim's per-`k` emitted index: `round (k·N / MAX_WEBP_FRAMES)`,
bumped forward by one only when it would *duplicate* (equal) the previous
emitted index. -/
def claimIndex (n k : ℕ) (prev : Option ℕ) : ℕ :=
  match prev with
  | some p =>
    if (round ((k : ℚ) * (n : ℚ) / (MAX_WEBP_FRAMES : ℚ))).toNat = p then p + 1
    else (round ((k : ℚ) * (n : ℚ) / (MAX_WEBP_FRAMES : ℚ))).toNat
  | none => (round ((k : ℚ) * (n : ℚ) / (MAX_WEBP_FRAMES : ℚ))).toNat

/-- The claim's literal webp sampling rule, with the `k`-th timestamp
`k · (1000 / fps)` in exact arithmetic. -/
def claimWebpRule (n : ℕ) (frame_rate : ℚ) : ℕ → ℕ → Option ℕ → List (ℕ × ℚ)
  | 0, _, _ => []
  | fuel + 1, k, prev =>
    if claimIndex n k prev < n then
      (claimIndex n k prev, (k : ℚ) * (1000 / frame_rate)) ::
        claimWebpRule n frame_rate fuel (k + 1) (some (claimIndex n k prev))
    else []

/-- A three-frame event used to probe the webp sampler. -/
def webpEvent3 : List MotionDetectionFrame :=
  [⟨witnessP, 0, 0⟩, ⟨witnessQ, 1, 0⟩, ⟨witnessP, 2, 0⟩]

/-- The index rule the source's loop actually implements: `e_k` is
`round (k·N/M)` pushed up to one past the previous emitted index whenever
it would not exceed it. -/
def monotoneIndex (n k : ℕ) (prev : Option ℕ) : ℕ :=
  match prev with
  | some p =>
    max (round ((k : ℚ) * (n : ℚ) / (MAX_WEBP_FRAMES : ℚ))).toNat (p + 1)
  | none => (round ((k : ℚ) * (n : ℚ) / (MAX_WEBP_FRAMES : ℚ))).toNat

/-- The amended webp sampling rule: monotone bump, `ℕ` timestamps
`k · ms_per_frame` with `ms_per_frame = 1000 / trunc fps` (truncating
division). -/
def monotoneWebpRule (n ms_per_frame : ℕ) : ℕ → ℕ → Option ℕ → List (ℕ × ℕ)
  | 0, _, _ => []
  | fuel + 1, k, prev =>
    if monotoneIndex n k prev < n then
      (monotoneIndex n k prev, k * ms_per_frame) ::
        monotoneWebpRule n ms_per_frame fuel (k + 1) (some (monotoneIndex n k prev))
    else []

/-- State classifier: is this a `ConfirmedInProgress` transition? -/
def isConfirmedInProgress : MotionDetectionState → Bool
  | .ConfirmedInProgress _ => true
  | _ => false

/-- State classifier: does this transition end (reset) a run? -/
def isRunReset : MotionDetectionState → Bool
  | .Rejected _ => true
  | .Completed _ _ => true
  | _ => false

/-- The `was_confirmed_already` flag a `Completed` transition carries. -/
def completedFlag? : MotionDetectionState → Option Bool
  | .Completed _ b => some b
  | _ => none

/-- One transition's effect on the per-run confirmed flag:
`ConfirmedInProgress` sets it, `Rejected`/`Completed` reset it, all other
transitions leave it. -/
def confirmedFlagStep (b : Bool) (s : MotionDetectionState) : Bool :=
  match s with
  | .ConfirmedInProgress _ => true
  | .Rejected _ => false
  | .Completed _ _ => false
  | _ => b

/-- Whether a `ConfirmedInProgress` was emitted since the last run reset
(or the start of the trace). -/
def confirmedSince (t : List MotionDetectionState) : Bool :=
  t.foldl confirmedFlagStep false

/-- A `ConfirmedInProgress` appears in `u`, with no run reset after it. -/
def confirmedEarlier (u : List MotionDetectionState) : Prop :=
  ∃ j, j < u.length ∧
    (∃ s, u.get? j = some s ∧ isConfirmedInProgress s = true) ∧
    ∀ k s, j < k → k < u.length → u.get? k = some s → isRunReset s = false

/-- Every `Completed` transition in `t` carries the flag that
`confirmedSince` computes over the trace before it. -/
def completedOK (t : List MotionDetectionState) : Prop :=
  ∀ i s b, t.get? i = some s → completedFlag? s = some b →
    b = confirmedSince (t.take i)

/-- The coupling invariant between a detector's `detection_confirmed` flag
and its emitted trace. -/
def TraceInv (d : RunningMotionDetector) : Prop :=
  d.detection_confirmed = confirmedSince d.pending_states ∧
  completedOK d.pending_states

/-- The event of the witness run `P,Q,Q,Q` under `witnessConfig`. -/
def witnessCompletedEvent : MotionDetectionEvent :=
  { start_stream_frame_number := 0
    end_stream_frame_number := 2
    frames := [⟨witnessP, 0, 0⟩, ⟨witnessQ, 1250, 3125000⟩, ⟨witnessQ, 0, 0⟩]
    total_score := 1250 }

/-- Justification of `sqrt_gt`: it decides the source's comparison
`sqrt v > threshold` exactly (`Real.sqrt` of a negative radicand is `0`,
matching the source where `running_stddev / pixel_ct` is never negative). -/
theorem sqrt_gt_iff_real_sqrt (v t : ℚ) :
    sqrt_gt v t = true ↔ (t : ℝ) < Real.sqrt (v : ℚ) := by
  unfold sqrt_gt
  split
  · next hneg =>
    simp only [true_iff]
    calc (t : ℝ) < 0 := by exact_mod_cast hneg
    _ ≤ Real.sqrt (v : ℚ) := Real.sqrt_nonneg _
  · next hpos =>
    have ht : (0 : ℝ) ≤ (t : ℚ) := by exact_mod_cast not_lt.mp hpos
    rw [decide_eq_true_iff, Real.lt_sqrt ht]
    constructor
    · intro h; exact_mod_cast h
    · intro h; exact_mod_cast h

/-- C10: with a `CompletedAfterConfirm` alert, the dispatched priority is
unconditionally `Lowest` (`-2`), overriding the camera-configured and
global priorities — unless the effective camera/global priority is
`Ignore` (`-3`), which has already suppressed the alert. -/
theorem alert_event_completedAfterConfirm_lowest
    (global_priority camera_alert_priority : Option PushoverPriority) :
    alert_event_priority global_priority camera_alert_priority .CompletedAfterConfirm =
      if (match camera_alert_priority with
          | some priority => some priority.toI32
          | none => global_priority.map PushoverPriority.toI32) =
          some PushoverPriority.Ignore.toI32
      then none
      else some (some (-2)) := by
  cases camera_alert_priority <;>
    simp only [alert_event_priority] <;> split <;> simp_all <;> rfl

/-- The `acceptable_ending` tracked by the `attach_gif` loop never exceeds
`MAX_ALERT_ATTACHMENT_SIZE`: it is only ever updated to a measured length
that passed the size check. -/
theorem gifLoop_acceptable_le (chunks : List (List ℕ)) :
    ∀ buf acceptable_ending, acceptable_ending ≤ MAX_ALERT_ATTACHMENT_SIZE →
      (gifLoop buf acceptable_ending chunks).2 ≤ MAX_ALERT_ATTACHMENT_SIZE := by
  induction chunks with
  | nil => intro buf acc h; exact h
  | cons c rest ih =>
    intro buf acc h
    unfold gifLoop
    split
    · exact h
    · next hlen => exact ih _ _ (le_of_not_lt hlen)

/-- C7: whatever bytes the gif encoder appends per frame (and flushes on
drop), the attachment `attach_gif` returns is at most
`MAX_ALERT_ATTACHMENT_SIZE = 2,621,440` bytes: the final `truncate` cuts
the buffer back to the last length measured under the cap. -/
theorem attach_gif_length_le (buf0 : List ℕ) (chunks : List (List ℕ))
    (trailer : List ℕ) :
    (attach_gif buf0 chunks trailer).length ≤ MAX_ALERT_ATTACHMENT_SIZE ∧
    MAX_ALERT_ATTACHMENT_SIZE = 2621440 := by
  refine ⟨?_, by decide⟩
  unfold attach_gif
  exact le_trans (List.length_take_le _ _)
    (gifLoop_acceptable_le chunks buf0 0 (Nat.zero_le _))

/-- Evaluating the S1 scenario: every `A`-to-`A` diff scores zero, which
fails `change_minimum < average`, and an empty run emits nothing. -/
theorem s1Trace_eval : s1Trace = [.Idle 0] := by with_unfolding_all rfl

/-- C4 counterexample: feeding `A,A,A,A,A` does *not* produce the five
transitions `Idle(0) … Idle(4)` the claim expects — a motion-negative
frame with no active run emits nothing (src/modect.rs lines 194, 257), so
only the bootstrap `Idle(0)` appears. -/
theorem s1_trace_ne_five_idles :
    s1Trace ≠ [.Idle 0, .Idle 1, .Idle 2, .Idle 3, .Idle 4] := by
  intro h
  rw [s1Trace_eval] at h
  simpa using congrArg List.length h

/-- C4 amended: feeding `A,A,A,A,A` to a fresh S1 detector produces exactly
the single transition `Idle(0)` (and in particular no events). -/
theorem s1_trace_single_idle : s1Trace = [.Idle 0] := s1Trace_eval

/-- If the mask rejects every paired pixel, no difference survives the
filter. -/
theorem diffList_eq_nil_of_all_masked (frame1 frame2 : RFrame)
    (mask : Option Mask)
    (h : ∀ i < (frame1.zip frame2).length, maskAllows mask i = false) :
    diffList frame1 frame2 mask = [] := by
  unfold diffList
  rw [List.map_eq_nil_iff, List.filter_eq_nil_iff]
  intro p hp
  have hlt : (frame1.zip frame2).get? p.1 = some p.2 :=
    List.mem_enum_iff_get?.mp hp
  have : p.1 < (frame1.zip frame2).length := by
    by_contra hge
    rw [List.get?_eq_none.mpr (le_of_not_lt hge)] at hlt
    exact Option.noConfusion hlt
  simp [h p.1 this]

/-- C6: a mask that excludes every pixel makes `frame_diff` return the
`{NaN, NaN}` sentinel (modelled `none`), and the detector's classification
of such a frame is motion-negative under every configuration, since `NaN`
satisfies none of the threshold comparisons. -/
theorem frame_diff_all_masked (frame1 frame2 : RFrame) (mask : Option Mask)
    (h : ∀ i < (frame1.zip frame2).length, maskAllows mask i = false) :
    frame_diff frame1 frame2 mask = none ∧
    ∀ config : RunningMotionDetectorConfig,
      isMotion config (frame_diff frame1 frame2 mask) = false := by
  have hnone : frame_diff frame1 frame2 mask = none := by
    unfold frame_diff
    rw [diffList_eq_nil_of_all_masked frame1 frame2 mask h]
    rfl
  exact ⟨hnone, fun config => by rw [hnone]; rfl⟩

/-- C6 witness: a one-pixel frame pair under the all-excluding mask `[1]`. -/
theorem frame_diff_all_masked_spot :
    (∀ i < (([((0 : ℤ), (0 : ℤ), (0 : ℤ))] : RFrame).zip
        ([((0 : ℤ), (0 : ℤ), (0 : ℤ))] : RFrame)).length,
      maskAllows (some [1]) i = false) ∧
    (frame_diff [((0 : ℤ), (0 : ℤ), (0 : ℤ))] [((0 : ℤ), (0 : ℤ), (0 : ℤ))]
        (some [1]) = none ∧
      ∀ config : RunningMotionDetectorConfig,
        isMotion config
          (frame_diff [((0 : ℤ), (0 : ℤ), (0 : ℤ))]
            [((0 : ℤ), (0 : ℤ), (0 : ℤ))] (some [1])) = false) :=
  ⟨by decide, frame_diff_all_masked _ _ _ (by decide)⟩

/-- C1: a motion-negative frame arriving while a run is active with a full
post-roll buffer makes the detector decide the run: `Rejected` when
`run.length ≤ minimum_frame_count` or `score < minimum_total_change`,
`Completed` otherwise; either way the post-roll is spliced onto the run,
the event's `end_stream_frame_number` is `n - 1` for the pre-increment
frame counter `n`, and an `Idle` transition with `frame_number = n`
immediately follows. -/
theorem frame_recv_postroll_full_decides (d : RunningMotionDetector)
    (new_frame last_frame : RFrame) (s : ℕ)
    (hlast : d.last_frame = some last_frame)
    (hneg : isMotion d.config (frame_diff last_frame new_frame d.mask_image) = false)
    (hrun : d.current_detection ≠ [])
    (hfull : d.followup_frames.length = d.config.followup_frame_count)
    (hstart : d.detection_start_frame = some s) :
    (frame_recv d new_frame).1.pending_states =
      d.pending_states ++
        [if d.current_detection.length ≤ d.config.minimum_frame_count
            ∨ d.current_detection_score < d.config.minimum_total_change then
           MotionDetectionState.Rejected
             { start_stream_frame_number := s
               end_stream_frame_number := d.frame_number - 1
               frames := d.current_detection ++ d.followup_frames
               total_score := d.current_detection_score }
         else
           MotionDetectionState.Completed
             { start_stream_frame_number := s
               end_stream_frame_number := d.frame_number - 1
               frames := d.current_detection ++ d.followup_frames
               total_score := d.current_detection_score } d.detection_confirmed,
         MotionDetectionState.Idle d.frame_number] := by
  obtain ⟨config, mask_image, last_frame0, frame_number, current_detection,
    followup_frames, detection_start_frame, detection_confirmed,
    current_detection_score, pending_states⟩ := d
  simp only at hlast hneg hrun hfull hstart ⊢
  subst hlast hstart
  cases current_detection with
  | nil => exact absurd rfl hrun
  | cons f0 cd =>
    simp only [frame_recv]
    cases hdiff : frame_diff last_frame new_frame mask_image with
    | none =>
      simp only [dispatchDiff, motionNegativeStep, List.isEmpty_cons, hfull,
        lt_irrefl, if_false, Bool.false_eq_true, Option.getD_some]
    | some p =>
      obtain ⟨average, varianceEstimate⟩ := p
      rw [hdiff] at hneg
      simp only [isMotion] at hneg
      simp only [dispatchDiff]
      rw [if_neg (show ¬motionPositive config average varianceEstimate = true by
        simp [hneg])]
      simp only [motionNegativeStep, List.isEmpty_cons, hfull, lt_irrefl, if_false,
        Bool.false_eq_true, Option.getD_some]

/-- C1 witness: a two-frame run with full one-slot post-roll, fed an
identical (hence motion-negative) frame; the run is completed. -/
theorem frame_recv_postroll_full_decides_spot :
    (witnessDetector1.last_frame = some witnessP ∧
      isMotion witnessDetector1.config
        (frame_diff witnessP witnessP witnessDetector1.mask_image) = false ∧
      witnessDetector1.current_detection ≠ [] ∧
      witnessDetector1.followup_frames.length =
        witnessDetector1.config.followup_frame_count ∧
      witnessDetector1.detection_start_frame = some 0) ∧
    (frame_recv witnessDetector1 witnessP).1.pending_states =
      witnessDetector1.pending_states ++
        [if witnessDetector1.current_detection.length ≤
              witnessDetector1.config.minimum_frame_count
            ∨ witnessDetector1.current_detection_score <
              witnessDetector1.config.minimum_total_change then
           MotionDetectionState.Rejected
             { start_stream_frame_number := 0
               end_stream_frame_number := witnessDetector1.frame_number - 1
               frames := witnessDetector1.current_detection ++
                 witnessDetector1.followup_frames
               total_score := witnessDetector1.current_detection_score }
         else
           MotionDetectionState.Completed
             { start_stream_frame_number := 0
               end_stream_frame_number := witnessDetector1.frame_number - 1
               frames := witnessDetector1.current_detection ++
                 witnessDetector1.followup_frames
               total_score := witnessDetector1.current_detection_score }
             witnessDetector1.detection_confirmed,
         MotionDetectionState.Idle witnessDetector1.frame_number] :=
  ⟨⟨rfl, by with_unfolding_all rfl, by decide, by with_unfolding_all rfl, rfl⟩,
    frame_recv_postroll_full_decides witnessDetector1 witnessP witnessP 0
      rfl (by with_unfolding_all rfl) (by decide) (by with_unfolding_all rfl) rfl⟩

/-- C2: a motion-positive frame makes the detector emit
`ConfirmedInProgress` (and mark the run confirmed) exactly when
`confirmCond` holds — `score ≥ minimum_total_change`, elapsed frames
strictly above `maximum_frame_wait + followup_frame_count +
minimum_frame_count`, and not already confirmed; the snapshot's
`end_stream_frame_number` is the pre-increment counter `n` and its frames
exclude the incoming frame, which is appended only afterwards, followed by
the `WaitAndSee`/`Active` transition. -/
theorem frame_recv_confirm_emission (d : RunningMotionDetector)
    (new_frame last_frame : RFrame) (average varianceEstimate : ℚ)
    (hlast : d.last_frame = some last_frame)
    (hdiff : frame_diff last_frame new_frame d.mask_image =
      some (average, varianceEstimate))
    (hpos : motionPositive d.config average varianceEstimate = true) :
    (frame_recv d new_frame).1.pending_states =
      d.pending_states ++
        (if confirmCond d then
          [MotionDetectionState.ConfirmedInProgress
            { start_stream_frame_number := startFrameOf d
              end_stream_frame_number := d.frame_number
              frames := splicedDetection d last_frame
              total_score := d.current_detection_score }]
         else []) ++
        [if (splicedDetection d last_frame ++
              [({ image := new_frame, change := average,
                  stddev_sq := varianceEstimate } : MotionDetectionFrame)]).length
              ≤ d.config.minimum_frame_count
            ∨ d.current_detection_score + average <
              d.config.minimum_total_change then
           MotionDetectionState.WaitAndSee (startFrameOf d) d.frame_number
             (d.current_detection_score + average)
         else
           MotionDetectionState.Active (startFrameOf d) d.frame_number
             (d.current_detection_score + average)] ∧
    (frame_recv d new_frame).1.detection_confirmed =
      (d.detection_confirmed || confirmCond d) := by
  obtain ⟨config, mask_image, last_frame0, frame_number, current_detection,
    followup_frames, detection_start_frame, detection_confirmed,
    current_detection_score, pending_states⟩ := d
  simp only at hlast hdiff hpos ⊢
  subst hlast
  simp only [frame_recv]
  rw [hdiff]
  simp only [dispatchDiff]
  rw [if_pos hpos]
  exact ⟨by with_unfolding_all rfl, by with_unfolding_all rfl⟩

/-- C2 witness: a fresh-run positive frame (confirm condition false) on a
two-pixel frame pair with distinct per-pixel diffs. -/
theorem frame_recv_confirm_emission_spot :
    (witnessDetector2.last_frame = some witnessP ∧
      frame_diff witnessP witnessQ witnessDetector2.mask_image =
        some (1250, 3125000) ∧
      motionPositive witnessDetector2.config 1250 3125000 = true) ∧
    ((frame_recv witnessDetector2 witnessQ).1.pending_states =
      witnessDetector2.pending_states ++
        (if confirmCond witnessDetector2 then
          [MotionDetectionState.ConfirmedInProgress
            { start_stream_frame_number := startFrameOf witnessDetector2
              end_stream_frame_number := witnessDetector2.frame_number
              frames := splicedDetection witnessDetector2 witnessP
              total_score := witnessDetector2.current_detection_score }]
         else []) ++
        [if (splicedDetection witnessDetector2 witnessP ++
              [({ image := witnessQ, change := 1250,
                  stddev_sq := 3125000 } : MotionDetectionFrame)]).length
              ≤ witnessDetector2.config.minimum_frame_count
            ∨ witnessDetector2.current_detection_score + 1250 <
              witnessDetector2.config.minimum_total_change then
           MotionDetectionState.WaitAndSee (startFrameOf witnessDetector2)
             witnessDetector2.frame_number
             (witnessDetector2.current_detection_score + 1250)
         else
           MotionDetectionState.Active (startFrameOf witnessDetector2)
             witnessDetector2.frame_number
             (witnessDetector2.current_detection_score + 1250)] ∧
      (frame_recv witnessDetector2 witnessQ).1.detection_confirmed =
        (witnessDetector2.detection_confirmed || confirmCond witnessDetector2)) :=
  ⟨⟨rfl, by with_unfolding_all rfl, by with_unfolding_all rfl⟩,
    frame_recv_confirm_emission witnessDetector2 witnessQ witnessP 1250 3125000
      rfl (by with_unfolding_all rfl) (by with_unfolding_all rfl)⟩

/-- Appending one more difference adds exactly its variance contribution,
computed from the mean of the list so far. -/
theorem specVariance_append (ds : List ℤ) (d : ℤ) :
    specVariance (ds ++ [d]) =
      specVariance ds +
        if 0 < ds.length then ((d : ℚ) - (ds.sum : ℚ) / (ds.length : ℚ)) ^ 2
        else 0 := by
  unfold specVariance
  rw [List.length_append, List.length_singleton, Finset.sum_range_succ]
  congr 1
  · refine Finset.sum_congr rfl fun i hi => ?_
    rw [Finset.mem_range] at hi
    rw [List.getD_append _ _ _ _ hi]
    unfold sumFirst
    rw [List.take_append_of_le_length (le_of_lt hi)]
  · have h1 : (ds ++ [d]).getD ds.length 0 = d := by
      rw [List.getD_eq_get?, List.get?_concat_length]; rfl
    have h2 : sumFirst (ds ++ [d]) ds.length = ds.sum := by
      unfold sumFirst; rw [List.take_left]
    rw [h1, h2]

/-- Folding `diffStep` along the surviving differences computes exactly the
total sum, the spec-side variance accumulator, and the count. -/
theorem foldl_diffStep_eq (ds : List ℤ) :
    ds.foldl diffStep ⟨0, 0, 0⟩ = ⟨ds.sum, specVariance ds, ds.length⟩ := by
  induction ds using List.reverseRecOn with
  | nil => simp [specVariance]
  | append_singleton ds d ih =>
    rw [List.foldl_concat, ih, specVariance_append]
    simp only [diffStep, DiffAcc.mk.injEq]
    refine ⟨by simp, ?_, by simp⟩
    split <;> simp

/-- C3: on equal-pixel-count frames, `frame_diff` computes, over the
non-masked pixels in row-major order (`diffList`), the per-pixel squared
channel differences; the variance term accumulates `(d_i − S/n)²` with the
running mean from before each pixel and only for `n > 0`
(`specVariance`), `S` and `n` updating afterwards; the result is
`average = S / n` and the stddev-estimate radicand `V / n` (the source's
`std_dev_estimate` is its square root). -/
theorem frame_diff_spec (frame1 frame2 : RFrame) (mask : Option Mask)
    (hlen : frame1.length = frame2.length) :
    frame_diff frame1 frame2 mask =
      (if (diffList frame1 frame2 mask).length = 0 then none
       else some
         (((diffList frame1 frame2 mask).sum : ℚ) /
            ((diffList frame1 frame2 mask).length : ℚ),
          specVariance (diffList frame1 frame2 mask) /
            ((diffList frame1 frame2 mask).length : ℚ))) := by
  unfold frame_diff
  rw [foldl_diffStep_eq]

/-- C3 witness: the two-pixel pair with diffs `[2500, 0]`,
`average = 1250`, variance term `(0 − 2500/1)² / 2 = 3125000`. -/
theorem frame_diff_spec_spot :
    witnessP.length = witnessQ.length ∧
    frame_diff witnessP witnessQ none =
      (if (diffList witnessP witnessQ none).length = 0 then none
       else some
         (((diffList witnessP witnessQ none).sum : ℚ) /
            ((diffList witnessP witnessQ none).length : ℚ),
          specVariance (diffList witnessP witnessQ none) /
            ((diffList witnessP witnessQ none).length : ℚ))) :=
  ⟨rfl, frame_diff_spec witnessP witnessQ none rfl⟩

/-- A non-empty list always has a latest maximum. -/
theorem lastMaxByChange_cons_ne_none (f : MotionDetectionFrame)
    (rest : List MotionDetectionFrame) : lastMaxByChange (f :: rest) ≠ none := by
  cases h : lastMaxByChange rest with
  | none => simp [lastMaxByChange, h]
  | some m => simp only [lastMaxByChange, h]; split <;> simp

/-- The left fold of `max_by` with the keep-second-on-ties combine equals
the right-recursive latest maximum. -/
theorem foldl_keepLater_eq (rest : List MotionDetectionFrame) :
    ∀ acc, some (rest.foldl (fun x y => if y.change < x.change then x else y) acc) =
      lastMaxByChange (acc :: rest) := by
  induction rest with
  | nil => intro acc; rfl
  | cons y t ih =>
    intro acc
    rw [List.foldl_cons, ih]
    cases ht : lastMaxByChange t with
    | none =>
      simp only [lastMaxByChange, ht]
      split <;> rfl
    | some m =>
      simp only [lastMaxByChange, ht]
      by_cases h1 : y.change < acc.change <;> by_cases h2 : m.change < y.change
      · have h3 : m.change < acc.change := lt_trans h2 h1
        simp [h1, h2, h3]
      · simp [h1, h2]
      · have h3 : ¬y.change < acc.change := h1
        simp [h1, h2]
      · have h3 : ¬m.change < acc.change :=
          not_lt.mpr (le_trans (not_lt.mp h1) (not_lt.mp h2))
        simp [h1, h2, h3]

/-- The latest maximum is a maximal element sitting at or after every other
maximal position. -/
theorem lastMaxByChange_is_last_max (frames : List MotionDetectionFrame) :
    ∀ m, lastMaxByChange frames = some m →
      ∃ i, frames.get? i = some m ∧
        (∀ j g, frames.get? j = some g → g.change ≤ m.change) ∧
        (∀ j g, frames.get? j = some g → m.change ≤ g.change → j ≤ i) := by
  induction frames with
  | nil => intro m h; exact absurd h (by simp [lastMaxByChange])
  | cons f rest ih =>
    intro m h
    cases hr : lastMaxByChange rest with
    | none =>
      have hrest : rest = [] := by
        cases rest with
        | nil => rfl
        | cons a t => exact absurd hr (lastMaxByChange_cons_ne_none a t)
      subst hrest
      simp only [lastMaxByChange] at h
      refine ⟨0, by simp [← Option.some_inj.mp h], ?_, ?_⟩
      · intro j g hj
        cases j with
        | zero =>
          simp only [List.get?_cons_zero, Option.some_inj] at hj
          rw [← hj, ← Option.some_inj.mp h]
        | succ j' => simp at hj
      · intro j g hj _
        cases j with
        | zero => exact le_refl 0
        | succ j' => simp at hj
    | some m' =>
      obtain ⟨i', hi', hmax', hlast'⟩ := ih m' hr
      simp only [lastMaxByChange, hr] at h
      by_cases hcmp : m'.change < f.change
      · rw [if_pos hcmp, Option.some_inj] at h
        subst h
        refine ⟨0, by simp, ?_, ?_⟩
        · intro j g hj
          cases j with
          | zero =>
            simp only [List.get?_cons_zero, Option.some_inj] at hj
            rw [← hj]
          | succ j' =>
            simp only [List.get?_cons_succ] at hj
            exact le_of_lt (lt_of_le_of_lt (hmax' j' g hj) hcmp)
        · intro j g hj hge
          cases j with
          | zero => exact le_refl 0
          | succ j' =>
            simp only [List.get?_cons_succ] at hj
            exact absurd (lt_of_le_of_lt (le_trans hge (hmax' j' g hj)) hcmp)
              (lt_irrefl _)
      · rw [if_neg hcmp, Option.some_inj] at h
        subst h
        refine ⟨i' + 1, by simpa using hi', ?_, ?_⟩
        · intro j g hj
          cases j with
          | zero =>
            simp only [List.get?_cons_zero, Option.some_inj] at hj
            rw [← hj]
            exact not_lt.mp hcmp
          | succ j' =>
            simp only [List.get?_cons_succ] at hj
            exact hmax' j' g hj
        · intro j g hj hge
          cases j with
          | zero => exact Nat.zero_le _
          | succ j' =>
            simp only [List.get?_cons_succ] at hj
            exact Nat.succ_le_succ (hlast' j' g hj hge)

/-- C9 counterexample: with two frames tied on `change`, `attach_jpeg`'s
`max_by` selects the *last* maximal frame, not the earliest. -/
theorem max_by_change_tie_picks_last :
    max_by_change [jpegFrameA, jpegFrameB] = some jpegFrameB ∧
    jpegFrameA.change = jpegFrameB.change ∧ jpegFrameA ≠ jpegFrameB := by
  refine ⟨by with_unfolding_all rfl, rfl, fun h => ?_⟩
  have himg := congrArg MotionDetectionFrame.image h
  simp only [jpegFrameA, jpegFrameB, witnessP, witnessQ, List.cons.injEq,
    Prod.mk.injEq] at himg
  exact absurd himg.1.1 (by decide)

/-- C9 amended: for a non-empty event, `attach_jpeg` selects a frame with
the maximum `change`; ties are broken by the *latest* such frame. -/
theorem max_by_change_picks_last_max (frames : List MotionDetectionFrame)
    (hne : frames ≠ []) :
    ∃ m i, max_by_change frames = some m ∧ frames.get? i = some m ∧
      (∀ j g, frames.get? j = some g → g.change ≤ m.change) ∧
      (∀ j g, frames.get? j = some g → m.change ≤ g.change → j ≤ i) := by
  cases frames with
  | nil => exact absurd rfl hne
  | cons f rest =>
    have heq : max_by_change (f :: rest) = lastMaxByChange (f :: rest) :=
      foldl_keepLater_eq rest f
    cases h : lastMaxByChange (f :: rest) with
    | none => exact absurd h (lastMaxByChange_cons_ne_none f rest)
    | some m =>
      obtain ⟨i, hi, hmax, hlast⟩ := lastMaxByChange_is_last_max (f :: rest) m h
      exact ⟨m, i, heq.trans h, hi, hmax, hlast⟩

/-- C9 witness: a singleton event. -/
theorem max_by_change_picks_last_max_spot :
    ([jpegFrameA] ≠ []) ∧
    ∃ m i, max_by_change [jpegFrameA] = some m ∧
      ([jpegFrameA] : List MotionDetectionFrame).get? i = some m ∧
      (∀ j g, ([jpegFrameA] : List MotionDetectionFrame).get? j = some g →
        g.change ≤ m.change) ∧
      (∀ j g, ([jpegFrameA] : List MotionDetectionFrame).get? j = some g →
        m.change ≤ g.change → j ≤ i) :=
  ⟨by simp, max_by_change_picks_last_max [jpegFrameA] (by simp)⟩

/-- C8 counterexample: on a 3-frame event at 30 fps, the code's third
`add_frame` call uses native index `2` at `66` ms, while the claim's rule
prescribes index `round (2·3/320) = 0` (which differs from the previous
emitted index `1`, hence is not a "duplicate" and is not bumped) at
timestamp `2 · (1000/30) = 200/3` ms. -/
theorem attach_webp_samples_ne_claim_rule :
    (attach_webp_samples webpEvent3 30).get? 2 = some (2, 66) ∧
    (claimWebpRule 3 30 MAX_WEBP_FRAMES 0 none).get? 2 = some (0, 200 / 3) ∧
    (2 : ℕ) ≠ 0 ∧ (66 : ℚ) ≠ 200 / 3 := by
  exact ⟨by with_unfolding_all rfl, by with_unfolding_all rfl, by decide,
    by norm_num⟩

/-- `-1isize as usize` is `2^64 - 1`. -/
theorem usizeOf_neg_one : usizeOf (-1) = 2 ^ 64 - 1 := by decide

/-- `as usize` is the identity on in-range naturals. -/
theorem usizeOf_natCast (p : ℕ) (h : p < 2 ^ 64) : usizeOf (p : ℤ) = p := by
  unfold usizeOf
  rw [Int.emod_eq_of_lt (Int.natCast_nonneg p) (by exact_mod_cast h)]
  exact Int.toNat_natCast p

/-- The loop's accumulated `frame_index` advances by `N/M` per emitted
frame. -/
theorem frameIndex_step (k n : ℕ) :
    (k : ℚ) * (n : ℚ) / (MAX_WEBP_FRAMES : ℚ) + (n : ℚ) / (MAX_WEBP_FRAMES : ℚ) =
      ((k + 1 : ℕ) : ℚ) * (n : ℚ) / (MAX_WEBP_FRAMES : ℚ) := by
  push_cast
  ring

/-- The source's `webpLoop` coincides with the monotone sampling rule:
relating the loop state `(frame_index, last_frame_index)` to the rule
state `(k, prev)`. -/
theorem webpLoop_eq_monotone (frames : List MotionDetectionFrame) (ms : ℕ)
    (hn : frames.length < 2 ^ 64) :
    ∀ (fuel : ℕ) (k : ℕ) (last : ℤ) (prev : Option ℕ),
      ((prev = none ∧ last = -1 ∧ k = 0) ∨
        (∃ p, prev = some p ∧ last = (p : ℤ) ∧ p < frames.length)) →
      webpLoop frames ms fuel
          ((k : ℚ) * (frames.length : ℚ) / (MAX_WEBP_FRAMES : ℚ)) last k =
        monotoneWebpRule frames.length ms fuel k prev := by
  intro fuel
  induction fuel with
  | zero => intro k last prev _; rfl
  | succ fuel ih =>
    intro k last prev hstate
    have htar : webpTarget last
        ((k : ℚ) * (frames.length : ℚ) / (MAX_WEBP_FRAMES : ℚ)) =
        monotoneIndex frames.length k prev := by
      rcases hstate with ⟨hprev, hlast, hk⟩ | ⟨p, hprev, hlast, hp⟩
      · subst hprev hlast hk
        have hfi : ((0 : ℕ) : ℚ) * (frames.length : ℚ) / (MAX_WEBP_FRAMES : ℚ)
            = 0 := by simp
        unfold webpTarget monotoneIndex
        rw [hfi, usizeOf_neg_one]
        norm_num
      · subst hprev hlast
        unfold webpTarget
        simp only [monotoneIndex]
        rw [usizeOf_natCast p (lt_trans hp hn)]
        by_cases hle :
          (round ((k : ℚ) * (frames.length : ℚ) / (MAX_WEBP_FRAMES : ℚ))).toNat ≤ p
        · rw [if_pos hle, Nat.mod_eq_of_lt (by omega)]
          exact (Nat.max_eq_right (by omega)).symm
        · rw [if_neg hle]
          exact (Nat.max_eq_left (by omega)).symm
    simp only [webpLoop, monotoneWebpRule, htar]
    cases hget : frames.get? (monotoneIndex frames.length k prev) with
    | none =>
      rw [if_neg (by simpa using List.get?_eq_none.mp hget)]
    | some x =>
      obtain ⟨hlt, _⟩ := List.get?_eq_some.mp hget
      rw [if_pos hlt]
      rw [frameIndex_step k frames.length]
      rw [Nat.mul_comm ms k]
      exact congrArg (List.cons _)
        (ih (k + 1) _ (some (monotoneIndex frames.length k prev))
          (Or.inr ⟨monotoneIndex frames.length k prev, rfl, rfl, hlt⟩))

/-- The loop emits at most `fuel` samples. -/
theorem webpLoop_length_le (frames : List MotionDetectionFrame) (ms : ℕ) :
    ∀ (fuel : ℕ) (fi : ℚ) (last : ℤ) (k : ℕ),
      (webpLoop frames ms fuel fi last k).length ≤ fuel := by
  intro fuel
  induction fuel with
  | zero => intro fi last k; simp [webpLoop]
  | succ fuel ih =>
    intro fi last k
    simp only [webpLoop]
    split
    · simp
    · simpa using Nat.succ_le_succ (ih _ _ _)

/-- C8 amended: for a non-empty event of `N < 2^64` frames at a frame rate
whose truncation is at least 1 (below 1 the source divides by zero), the
emitted samples follow the *monotone* bump rule — index
`max (round (k·N/M)) (prev + 1)` — with timestamps `k · (1000 / trunc fps)`
under truncating integer division, and at most
`MAX_WEBP_FRAMES = MAX_ALERT_ATTACHMENT_SIZE / 8192 = 320` frames are
emitted. -/
theorem attach_webp_samples_monotone (frames : List MotionDetectionFrame)
    (frame_rate : ℚ) (hne : frames ≠ []) (hfps : 1 ≤ ⌊frame_rate⌋)
    (hn : frames.length < 2 ^ 64) :
    attach_webp_samples frames frame_rate =
      monotoneWebpRule frames.length (1000 / Int.toNat ⌊frame_rate⌋)
        MAX_WEBP_FRAMES 0 none ∧
    (attach_webp_samples frames frame_rate).length ≤ MAX_WEBP_FRAMES ∧
    MAX_WEBP_FRAMES = 320 := by
  refine ⟨?_, ?_, by decide⟩
  · unfold attach_webp_samples
    have h0 : (0 : ℚ) =
        ((0 : ℕ) : ℚ) * (frames.length : ℚ) / (MAX_WEBP_FRAMES : ℚ) := by simp
    rw [h0]
    exact webpLoop_eq_monotone frames _ hn MAX_WEBP_FRAMES 0 (-1) none
      (Or.inl ⟨rfl, rfl, rfl⟩)
  · exact webpLoop_length_le frames _ MAX_WEBP_FRAMES _ _ _

/-- C8 witness: the three-frame event at 30 fps. -/
theorem attach_webp_samples_monotone_spot :
    (webpEvent3 ≠ [] ∧ 1 ≤ ⌊(30 : ℚ)⌋ ∧ webpEvent3.length < 2 ^ 64) ∧
    (attach_webp_samples webpEvent3 30 =
      monotoneWebpRule webpEvent3.length (1000 / Int.toNat ⌊(30 : ℚ)⌋)
        MAX_WEBP_FRAMES 0 none ∧
    (attach_webp_samples webpEvent3 30).length ≤ MAX_WEBP_FRAMES ∧
    MAX_WEBP_FRAMES = 320) :=
  ⟨⟨by simp [webpEvent3], by norm_num, by norm_num [webpEvent3]⟩,
    attach_webp_samples_monotone webpEvent3 30 (by simp [webpEvent3])
      (by norm_num) (by norm_num [webpEvent3])⟩

/-- `confirmedSince` over an appended singleton. -/
theorem confirmedSince_append_one (t : List MotionDetectionState)
    (s1 : MotionDetectionState) :
    confirmedSince (t ++ [s1]) = confirmedFlagStep (confirmedSince t) s1 := by
  rw [confirmedSince, List.foldl_concat]; rfl

/-- `confirmedSince` over two appended transitions. -/
theorem confirmedSince_append_two (t : List MotionDetectionState)
    (s1 s2 : MotionDetectionState) :
    confirmedSince (t ++ [s1, s2]) =
      confirmedFlagStep (confirmedFlagStep (confirmedSince t) s1) s2 := by
  rw [confirmedSince, List.foldl_append]; rfl

/-- `completedOK` extends over an appended block whose `Completed` members
carry the right flag relative to the concatenated prefix. -/
theorem completedOK_append (t l : List MotionDetectionState)
    (hC : completedOK t)
    (hl : ∀ j s b, l.get? j = some s → completedFlag? s = some b →
      b = confirmedSince (t ++ l.take j)) :
    completedOK (t ++ l) := by
  intro i s b hget hflag
  rcases Nat.lt_or_ge i t.length with hi | hi
  · rw [List.get?_append hi] at hget
    rw [List.take_append_of_le_length (le_of_lt hi)]
    exact hC i s b hget hflag
  · rw [List.get?_append_right hi] at hget
    have hrw : i = t.length + (i - t.length) := by omega
    rw [hrw, List.take_append]
    exact hl (i - t.length) s b hget hflag

/-- The motion-negative arm preserves the trace invariant: a `Followup`
append leaves the flag; a `Rejected`/`Completed` + `Idle` append resets it,
the `Completed` carrying exactly the pre-reset flag. -/
theorem motionNegativeStep_TraceInv (d : RunningMotionDetector) (f : RFrame)
    (h : TraceInv d) : TraceInv (motionNegativeStep d f) := by
  obtain ⟨hconf, hC⟩ := h
  unfold motionNegativeStep
  split
  · exact ⟨hconf, hC⟩
  · split
    · refine ⟨?_, ?_⟩
      · show d.detection_confirmed = confirmedSince (d.pending_states ++ [_])
        rw [confirmedSince_append_one]
        exact hconf
      · show completedOK (d.pending_states ++ [_])
        refine completedOK_append _ _ hC ?_
        intro j s b hj hb
        cases j with
        | zero =>
          rw [List.get?_cons_zero, Option.some_inj] at hj
          rw [← hj] at hb
          exact absurd hb (by simp [completedFlag?])
        | succ j' => simp at hj
    · refine ⟨?_, ?_⟩
      · show (false : Bool) = confirmedSince (d.pending_states ++ [_, _])
        rw [confirmedSince_append_two]
        split <;> rfl
      · show completedOK (d.pending_states ++ [_, _])
        refine completedOK_append _ _ hC ?_
        intro j s b hj hb
        cases j with
        | zero =>
          rw [List.get?_cons_zero, Option.some_inj] at hj
          rw [← hj] at hb
          rw [List.take_zero, List.append_nil]
          revert hb
          split
          · intro hb; exact absurd hb (by simp [completedFlag?])
          · intro hb
            simp only [completedFlag?, Option.some_inj] at hb
            rw [← hb]
            exact hconf
        | succ j' =>
          cases j' with
          | zero =>
            rw [List.get?_cons_succ, List.get?_cons_zero, Option.some_inj] at hj
            rw [← hj] at hb
            exact absurd hb (by simp [completedFlag?])
          | succ j'' => simp at hj

/-- The motion-positive arm preserves the trace invariant: the appended
states are never `Completed`, and `ConfirmedInProgress` is appended exactly
when the flag is turned on. -/
theorem motionPositiveStep_TraceInv (d : RunningMotionDetector) (lf f : RFrame)
    (a v : ℚ) (h : TraceInv d) : TraceInv (motionPositiveStep d lf f a v) := by
  obtain ⟨hconf, hC⟩ := h
  unfold motionPositiveStep
  refine ⟨?_, ?_⟩
  · show (d.detection_confirmed || confirmCond d) =
      confirmedSince ((d.pending_states ++ _) ++ [_])
    rw [confirmedSince_append_one]
    by_cases hcc : confirmCond d = true
    · rw [hcc]
      split <;> split <;>
        simp_all [confirmedSince_append_one, confirmedFlagStep]
    · have hcc' : confirmCond d = false := by
        cases hq : confirmCond d
        · rfl
        · exact absurd hq hcc
      rw [hcc']
      split <;> split <;> simp_all [confirmedFlagStep, hconf]
  · show completedOK ((d.pending_states ++ _) ++ [_])
    rw [List.append_assoc]
    refine completedOK_append _ _ hC ?_
    intro j s b hj hb
    by_cases hcc : confirmCond d = true
    · rw [if_pos hcc] at hj
      simp only [List.cons_append, List.nil_append] at hj
      cases j with
      | zero =>
        rw [List.get?_cons_zero, Option.some_inj] at hj
        rw [← hj] at hb
        exact absurd hb (by simp [completedFlag?])
      | succ j' =>
        cases j' with
        | zero =>
          rw [List.get?_cons_succ, List.get?_cons_zero, Option.some_inj] at hj
          rw [← hj] at hb
          revert hb
          split <;> intro hb <;> exact absurd hb (by simp [completedFlag?])
        | succ j'' => simp at hj
    · have hcc' : confirmCond d = false := by
        cases hq : confirmCond d
        · rfl
        · exact absurd hq hcc
      rw [hcc'] at hj
      simp only [Bool.false_eq_true, if_false, List.nil_append] at hj
      cases j with
      | zero =>
        rw [List.get?_cons_zero, Option.some_inj] at hj
        rw [← hj] at hb
        revert hb
        split <;> intro hb <;> exact absurd hb (by simp [completedFlag?])
      | succ j' => simp at hj

/-- One `frame_recv` call preserves the trace invariant. -/
theorem frame_recv_TraceInv (d : RunningMotionDetector) (f : RFrame)
    (h : TraceInv d) : TraceInv (frame_recv d f).1 := by
  obtain ⟨config, mask_image, last_frame0, frame_number, current_detection,
    followup_frames, detection_start_frame, detection_confirmed,
    current_detection_score, pending_states⟩ := d
  obtain ⟨hconf, hC⟩ := h
  simp only at hconf hC
  cases last_frame0 with
  | none =>
    refine ⟨?_, ?_⟩
    · show detection_confirmed =
        confirmedSince (pending_states ++ [.Idle frame_number])
      rw [confirmedSince_append_one]
      exact hconf
    · show completedOK (pending_states ++ [.Idle frame_number])
      refine completedOK_append _ _ hC ?_
      intro j s b hj hb
      cases j with
      | zero =>
        rw [List.get?_cons_zero, Option.some_inj] at hj
        rw [← hj] at hb
        exact absurd hb (by simp [completedFlag?])
      | succ j' => simp at hj
  | some last_frame =>
    have hkey : TraceInv (dispatchDiff
        ⟨config, mask_image, some last_frame, frame_number, current_detection,
          followup_frames, detection_start_frame, detection_confirmed,
          current_detection_score, pending_states⟩ last_frame f
        (frame_diff last_frame f mask_image)) := by
      cases frame_diff last_frame f mask_image with
      | none => exact motionNegativeStep_TraceInv _ f ⟨hconf, hC⟩
      | some p =>
        obtain ⟨a, v⟩ := p
        simp only [dispatchDiff]
        split
        · exact motionPositiveStep_TraceInv _ last_frame f a v ⟨hconf, hC⟩
        · exact motionNegativeStep_TraceInv _ f ⟨hconf, hC⟩
    exact ⟨hkey.1, hkey.2⟩

/-- Feeding any frame sequence preserves the trace invariant. -/
theorem runDetector_TraceInv (frames : List RFrame) :
    ∀ d : RunningMotionDetector, TraceInv d → TraceInv (runDetector d frames) := by
  induction frames with
  | nil => intro d h; exact h
  | cons f rest ih =>
    intro d h
    exact ih _ (frame_recv_TraceInv d f h)

/-- Appending a transition that neither confirms nor resets does not change
whether a live (unreset) `ConfirmedInProgress` exists. -/
theorem confirmedEarlier_append_neutral (u : List MotionDetectionState)
    (s : MotionDetectionState) (hcf : isConfirmedInProgress s = false)
    (hrr : isRunReset s = false) :
    confirmedEarlier (u ++ [s]) ↔ confirmedEarlier u := by
  unfold confirmedEarlier
  constructor
  · rintro ⟨j, hj, ⟨s', hs', hcf'⟩, hno⟩
    rw [List.length_append, List.length_singleton] at hj
    have hjlt : j < u.length := by
      rcases Nat.lt_or_ge j u.length with h | h
      · exact h
      · exfalso
        have hj_eq : j = u.length := by omega
        rw [hj_eq, List.get?_concat_length, Option.some_inj] at hs'
        rw [← hs', hcf] at hcf'
        exact Bool.noConfusion hcf'
    refine ⟨j, hjlt, ⟨s', by rwa [List.get?_append hjlt] at hs', hcf'⟩, ?_⟩
    intro k sk hk1 hk2 hgk
    refine hno k sk hk1 ?_ ?_
    · rw [List.length_append, List.length_singleton]; omega
    · rwa [List.get?_append hk2]
  · rintro ⟨j, hj, ⟨s', hs', hcf'⟩, hno⟩
    refine ⟨j, ?_, ⟨s', by rwa [List.get?_append hj], hcf'⟩, ?_⟩
    · rw [List.length_append, List.length_singleton]; omega
    · intro k sk hk1 hk2 hgk
      rw [List.length_append, List.length_singleton] at hk2
      rcases Nat.lt_or_ge k u.length with h | h
      · rw [List.get?_append h] at hgk
        exact hno k sk hk1 h hgk
      · have hkeq : k = u.length := by omega
        rw [hkeq, List.get?_concat_length, Option.some_inj] at hgk
        rw [← hgk]
        exact hrr

/-- The fold-computed flag is `true` exactly when a `ConfirmedInProgress`
was emitted with no run reset after it. -/
theorem confirmedSince_eq_true_iff (u : List MotionDetectionState) :
    confirmedSince u = true ↔ confirmedEarlier u := by
  induction u using List.reverseRecOn with
  | nil => simp [confirmedSince, confirmedEarlier]
  | append_singleton u s ihu =>
    rw [confirmedSince_append_one]
    cases s with
    | ConfirmedInProgress e =>
      simp only [confirmedFlagStep, true_iff]
      refine ⟨u.length, by simp, ⟨_, List.get?_concat_length u _, rfl⟩, ?_⟩
      intro k s' hk1 hk2 _
      rw [List.length_append, List.length_singleton] at hk2
      omega
    | Rejected e =>
      simp only [confirmedFlagStep, Bool.false_eq_true, false_iff]
      rintro ⟨j, hj, ⟨s', hs', hcf'⟩, hno⟩
      rw [List.length_append, List.length_singleton] at hj
      rcases Nat.lt_or_ge j u.length with h | h
      · have := hno u.length (.Rejected e) h
          (by rw [List.length_append, List.length_singleton]; omega)
          (List.get?_concat_length u _)
        exact Bool.noConfusion this
      · have hj_eq : j = u.length := by omega
        rw [hj_eq, List.get?_concat_length, Option.some_inj] at hs'
        rw [← hs'] at hcf'
        exact Bool.noConfusion hcf'
    | Completed e b =>
      simp only [confirmedFlagStep, Bool.false_eq_true, false_iff]
      rintro ⟨j, hj, ⟨s', hs', hcf'⟩, hno⟩
      rw [List.length_append, List.length_singleton] at hj
      rcases Nat.lt_or_ge j u.length with h | h
      · have := hno u.length (.Completed e b) h
          (by rw [List.length_append, List.length_singleton]; omega)
          (List.get?_concat_length u _)
        exact Bool.noConfusion this
      · have hj_eq : j = u.length := by omega
        rw [hj_eq, List.get?_concat_length, Option.some_inj] at hs'
        rw [← hs'] at hcf'
        exact Bool.noConfusion hcf'
    | Idle n =>
      rw [confirmedEarlier_append_neutral u (.Idle n) rfl rfl]
      exact ihu
    | WaitAndSee x y q =>
      rw [confirmedEarlier_append_neutral u (.WaitAndSee x y q) rfl rfl]
      exact ihu
    | Active x y q =>
      rw [confirmedEarlier_append_neutral u (.Active x y q) rfl rfl]
      exact ihu
    | Followup x y q =>
      rw [confirmedEarlier_append_neutral u (.Followup x y q) rfl rfl]
      exact ihu

/-- `confirmedEarlier` of a prefix, restated over the full trace. -/
theorem confirmedEarlier_take_iff (t : List MotionDetectionState) (i : ℕ)
    (hi : i ≤ t.length) :
    confirmedEarlier (t.take i) ↔
      ∃ j, j < i ∧
        (∃ s, t.get? j = some s ∧ isConfirmedInProgress s = true) ∧
        ∀ k s, j < k → k < i → t.get? k = some s → isRunReset s = false := by
  unfold confirmedEarlier
  have hlen : (t.take i).length = i := by
    rw [List.length_take]; omega
  rw [hlen]
  constructor
  · rintro ⟨j, hj, ⟨s, hs, hcf⟩, hno⟩
    rw [List.get?_take hj] at hs
    exact ⟨j, hj, ⟨s, hs, hcf⟩, fun k sk h1 h2 hk =>
      hno k sk h1 h2 (by rwa [List.get?_take h2])⟩
  · rintro ⟨j, hj, ⟨s, hs, hcf⟩, hno⟩
    exact ⟨j, hj, ⟨s, by rwa [List.get?_take hj], hcf⟩, fun k sk h1 h2 hk =>
      hno k sk h1 h2 (by rwa [List.get?_take h2] at hk)⟩

/-- C5: over any input sequence fed to a fresh detector, a `Completed`
transition carries `was_confirmed_already = true` exactly when a
`ConfirmedInProgress` transition appears earlier in the trace with no
`Rejected`/`Completed` between the two — i.e. earlier in the same run. -/
theorem completed_flag_iff_confirmed_in_run
    (config : RunningMotionDetectorConfig) (mask : Option Mask)
    (frames : List RFrame) (i : ℕ) (ev : MotionDetectionEvent) (b : Bool)
    (hget : (runDetector (RunningMotionDetector.new config mask)
        frames).pending_states.get? i = some (.Completed ev b)) :
    (b = true ↔
      ∃ j, j < i ∧
        (∃ s, (runDetector (RunningMotionDetector.new config mask)
            frames).pending_states.get? j = some s ∧
          isConfirmedInProgress s = true) ∧
        ∀ k s, j < k → k < i →
          (runDetector (RunningMotionDetector.new config mask)
            frames).pending_states.get? k = some s →
          isRunReset s = false) := by
  have hinv : TraceInv (runDetector (RunningMotionDetector.new config mask)
      frames) :=
    runDetector_TraceInv frames _
      ⟨rfl, fun j s c h1 _ => by simp [RunningMotionDetector.new] at h1⟩
  have hb : b = confirmedSince
      ((runDetector (RunningMotionDetector.new config mask)
        frames).pending_states.take i) :=
    hinv.2 i _ b hget rfl
  have hi : i < (runDetector (RunningMotionDetector.new config mask)
      frames).pending_states.length := by
    by_contra hge
    rw [List.get?_eq_none.mpr (le_of_not_lt hge)] at hget
    exact Option.noConfusion hget
  rw [hb, confirmedSince_eq_true_iff]
  exact confirmedEarlier_take_iff _ i (le_of_lt hi)

/-- C5 witness: the run `P,Q,Q,Q` completes unconfirmed, and indeed no
live `ConfirmedInProgress` precedes its `Completed` transition. -/
theorem completed_flag_iff_confirmed_in_run_spot :
    (runDetector (RunningMotionDetector.new witnessConfig none)
        [witnessP, witnessQ, witnessQ, witnessQ]).pending_states.get? 3 =
      some (.Completed witnessCompletedEvent false) ∧
    ((false = true) ↔
      ∃ j, j < 3 ∧
        (∃ s, (runDetector (RunningMotionDetector.new witnessConfig none)
            [witnessP, witnessQ, witnessQ, witnessQ]).pending_states.get? j =
              some s ∧
          isConfirmedInProgress s = true) ∧
        ∀ k s, j < k → k < 3 →
          (runDetector (RunningMotionDetector.new witnessConfig none)
            [witnessP, witnessQ, witnessQ, witnessQ]).pending_states.get? k =
              some s →
          isRunReset s = false) :=
  ⟨by with_unfolding_all rfl,
    completed_flag_iff_confirmed_in_run witnessConfig none
      [witnessP, witnessQ, witnessQ, witnessQ] 3 witnessCompletedEvent false
      (by with_unfolding_all rfl)⟩

end Rmr

